import Mathlib

set_option autoImplicit false

/-!
Verification of the rig-bdi incident-response agent core.

Shallow embedding of the Rust sources: pure functions are translated to Lean
functions; the event log is modelled as the list of stored events; external
effects (storage success, the LLM provider, the tool executor, wall-clock time)
are passed in as explicit parameters or oracles.  JSON values are modelled by a
small inductive mirroring exactly the shapes serde_json produces for the types
involved.
-/

namespace RigBdi

/-! ## JSON value model (serde_json::Value as used by the code) -/

inductive Json where
  | null
  | jbool (b : Bool)
  | num (n : Int)
  | str (s : String)
  | arr (elems : List Json)
  | obj (fields : List (String × Json))

def lookupField (key : String) : List (String × Json) → Option Json
  | [] => none
  | (k, v) :: rest => if k == key then some v else lookupField key rest

/-- `Value::get(key)`: field lookup on an object, `none` on any other value. -/
def Json.getField (j : Json) (key : String) : Option Json :=
  match j with
  | .obj fields => lookupField key fields
  | _ => none

/-- `Value::as_str()`. -/
def Json.asStr : Json → Option String
  | .str s => some s
  | _ => none

/-- `Value::as_array()`. -/
def Json.asArr : Json → Option (List Json)
  | .arr xs => some xs
  | _ => none

/-! ## Effect algebra (rig-effects/src/lib.rs) -/

inductive Effect where
  | Pure
  | Observe
  | Mutate
  | Irreversible
deriving DecidableEq

inductive Recovery where
  | Retry
  | CheckAndRetry
  | ManualReview
deriving DecidableEq

/-- `Effect::recovery`. -/
def Effect.recovery : Effect → Recovery
  | .Pure => .Retry
  | .Observe => .Retry
  | .Mutate => .CheckAndRetry
  | .Irreversible => .ManualReview

/-- `Effect::backtrackable`. -/
def Effect.backtrackable : Effect → Bool
  | .Pure => true
  | .Observe => true
  | .Mutate => true
  | .Irreversible => false

/-- `Effect::cost_weight`. -/
def Effect.cost_weight : Effect → Nat
  | .Pure => 1
  | .Observe => 2
  | .Mutate => 10
  | .Irreversible => 100

/-- serde serialization of `Effect` (externally tagged unit variants become
JSON strings). -/
def Effect.toJson : Effect → Json
  | .Pure => .str "Pure"
  | .Observe => .str "Observe"
  | .Mutate => .str "Mutate"
  | .Irreversible => .str "Irreversible"

/-- serde deserialization of `Effect`. -/
def Effect.fromJson? : Json → Option Effect
  | .str "Pure" => some .Pure
  | .str "Observe" => some .Observe
  | .str "Mutate" => some .Mutate
  | .str "Irreversible" => some .Irreversible
  | _ => none

/-- `format!("{:?}", effect)` from the `Debug` derive. -/
def Effect.debugStr : Effect → String
  | .Pure => "Pure"
  | .Observe => "Observe"
  | .Mutate => "Mutate"
  | .Irreversible => "Irreversible"

/-! ## Canonical alert schema and validator (fact-registry/src/lib.rs) -/

structure CanonicalAlertV1 where
  schema : String
  id : String
  title : String
  severity : String
  tags : List String
  source : String
  occurred_at : String
deriving DecidableEq

/-- `validate_alert_v1`. -/
def validate_alert_v1 (alert : CanonicalAlertV1) : Except String Unit :=
  if alert.schema ≠ "alert.v1" then
    .error ("unsupported schema '" ++ alert.schema ++ "'")
  else if alert.id.trim = "" then
    .error "id is required"
  else if alert.title.trim = "" then
    .error "title is required"
  else
    match alert.severity.toLower with
    | "low" | "medium" | "high" | "critical" => .ok ()
    | other => .error ("invalid severity '" ++ other ++ "'")

/-! ## Fact model (agent-core/src/facts.rs) -/

inductive Severity where
  | Low
  | Medium
  | High
  | Critical
deriving DecidableEq

inductive AlertSource where
  | Generic
  | Datadog
  | PagerDuty
deriving DecidableEq

structure AlertFact where
  id : String
  source : AlertSource
  severity : Severity
  title : String
  tags : List String
  received_at : String
deriving DecidableEq

inductive Fact where
  | Alert (alert : AlertFact)
deriving DecidableEq

/-! serde serialization / deserialization of `Fact`, as produced and consumed
through `serde_json::to_value` / `serde_json::from_value`. -/

def Severity.toJson : Severity → Json
  | .Low => .str "Low"
  | .Medium => .str "Medium"
  | .High => .str "High"
  | .Critical => .str "Critical"

def Severity.fromJson? : Json → Option Severity
  | .str "Low" => some .Low
  | .str "Medium" => some .Medium
  | .str "High" => some .High
  | .str "Critical" => some .Critical
  | _ => none

def AlertSource.toJson : AlertSource → Json
  | .Generic => .str "Generic"
  | .Datadog => .str "Datadog"
  | .PagerDuty => .str "PagerDuty"

def AlertSource.fromJson? : Json → Option AlertSource
  | .str "Generic" => some .Generic
  | .str "Datadog" => some .Datadog
  | .str "PagerDuty" => some .PagerDuty
  | _ => none

def stringListFromJson? (j : Json) : Option (List String) :=
  (j.asArr).bind (fun xs => xs.mapM Json.asStr)

def AlertFact.toJson (a : AlertFact) : Json :=
  .obj [("id", .str a.id), ("source", a.source.toJson), ("severity", a.severity.toJson),
        ("title", .str a.title), ("tags", .arr (a.tags.map .str)),
        ("received_at", .str a.received_at)]

def AlertFact.fromJson? (j : Json) : Option AlertFact := do
  let id ← (j.getField "id").bind Json.asStr
  let source ← (j.getField "source").bind AlertSource.fromJson?
  let severity ← (j.getField "severity").bind Severity.fromJson?
  let title ← (j.getField "title").bind Json.asStr
  let tags ← (j.getField "tags").bind stringListFromJson?
  let received_at ← (j.getField "received_at").bind Json.asStr
  pure ⟨id, source, severity, title, tags, received_at⟩

/-- serde: the `Fact` enum is externally tagged, so `Fact::Alert(a)` becomes
an object with the single field `"Alert"`. -/
def Fact.toJson : Fact → Json
  | .Alert a => .obj [("Alert", a.toJson)]

def Fact.fromJson? (j : Json) : Option Fact :=
  ((j.getField "Alert").bind AlertFact.fromJson?).map Fact.Alert

/-! ## Event model (agent-core/src/event_log.rs) -/

inductive EventType where
  | FactAsserted
  | FactRetracted
  | FactSuggested
  | FactSuggestionResolved
  | PlanSelected
  | ActionIntent
  | ActionResult
  | Escalated
  | EscalationResponded
  | Resolved
deriving DecidableEq

structure Event where
  id : Option Int
  incident_id : String
  event_type : EventType
  description : String
  details : Option Json
  timestamp : String

/-! ## Event log queries (agent-core/src/event_log.rs)

The stored log is modelled as the list of its rows in ascending id order.
`BTreeSet<String>` is modelled as a sorted duplicate-free list built by ordered
insertion. -/

def btreeInsert (x : String) : List String → List String
  | [] => [x]
  | y :: ys =>
    if x < y then x :: y :: ys
    else if x = y then y :: ys
    else y :: btreeInsert x ys

def btreeOfList (xs : List String) : List String :=
  xs.foldl (fun acc x => btreeInsert x acc) []

/-- `EventLog::active_incidents`: the set of all incident ids minus the set of
incident ids having a `Resolved` event (both collected as BTreeSets, returned
as their difference). -/
def active_incidents (log : List Event) : List String :=
  let all := btreeOfList (log.map (·.incident_id))
  let resolved := btreeOfList
    ((log.filter (fun e => decide (e.event_type = .Resolved))).map (·.incident_id))
  all.filter (fun i => decide (i ∉ resolved))

/-! ## Incident summary projection (src-tauri/src/commands.rs, summarize_incident) -/

structure IncidentDto where
  id : String
  status : String
  severity : String
  title : String
  started_at : String
  current_phase : String

/-- `severity_to_string` from commands.rs. -/
def severity_to_string : Severity → String
  | .Low => "low"
  | .Medium => "medium"
  | .High => "high"
  | .Critical => "critical"

/-- One iteration of the event loop inside `summarize_incident`: the
`started_at` initialisation followed by the `match event.event_type`. -/
def summarize_event (acc : IncidentDto) (event : Event) : IncidentDto :=
  let acc := if acc.started_at = "" then { acc with started_at := event.timestamp } else acc
  match event.event_type with
  | .Resolved => { acc with status := "resolved", current_phase := "resolved" }
  | .Escalated => { acc with status := "escalated", current_phase := "escalating" }
  | .EscalationResponded => { acc with current_phase := "human-response" }
  | .FactRetracted => { acc with current_phase := "matching" }
  | .FactSuggested => { acc with current_phase := "matching" }
  | .FactSuggestionResolved => { acc with current_phase := "matching" }
  | .PlanSelected => { acc with current_phase := "planning" }
  | .ActionIntent => { acc with current_phase := "executing" }
  | .ActionResult => { acc with current_phase := "executing" }
  | .FactAsserted =>
    let acc := { acc with current_phase := "matching" }
    match event.details with
    | some details =>
      match Fact.fromJson? details with
      | some (Fact.Alert alert) =>
        { acc with title := alert.title, severity := severity_to_string alert.severity }
      | none => acc
    | none => acc

/-- `summarize_incident`, as a pure function of `events_for_incident`. -/
def summarize_incident (incident_id : String) (events : List Event) : IncidentDto :=
  events.foldl summarize_event
    { id := incident_id, status := "active", severity := "high", title := "",
      started_at := "", current_phase := "observing" }

/-- The event type of the most recent `Resolved`-or-`Escalated` event of the
list, if any.  This is the observation that determines the summary status. -/
def lastStatusEvent : List Event → Option EventType
  | [] => none
  | e :: rest =>
    match lastStatusEvent rest with
    | some t => some t
    | none =>
      if e.event_type = .Resolved ∨ e.event_type = .Escalated then some e.event_type
      else none

/-- A log refuting claim C1 as stated: one `Resolved` event followed by one
`Escalated` event. -/
def c1Events : List Event :=
  [{ id := none, incident_id := "inc-1", event_type := .Resolved,
     description := "incident resolved", details := none, timestamp := "1" },
   { id := none, incident_id := "inc-1", event_type := .Escalated,
     description := "escalation required", details := none, timestamp := "2" }]

/-- A log for the amended claim's witness: an `Escalated` event followed by a
`Resolved` event. -/
def c1WitnessEvents : List Event :=
  [{ id := none, incident_id := "inc-1", event_type := .Escalated,
     description := "escalation required", details := none, timestamp := "1" },
   { id := none, incident_id := "inc-1", event_type := .Resolved,
     description := "incident resolved", details := none, timestamp := "2" }]

/-! ## Runbooks (agent-core/src/runbooks.rs) -/

structure ActionSchema where
  name : String
  effect : Effect
deriving DecidableEq

abbrev Runbook : Type := List ActionSchema

def crashloop_runbook : Runbook :=
  [⟨"inspect-pod-logs", .Observe⟩, ⟨"rollback-deployment", .Mutate⟩]

def oomkill_runbook : Runbook :=
  [⟨"inspect-memory-metrics", .Observe⟩, ⟨"tune-memory-limits", .Mutate⟩]

/-- serde serialization of `ActionSchema` (fields in declaration order). -/
def ActionSchema.toJson (a : ActionSchema) : Json :=
  .obj [("name", .str a.name), ("effect", a.effect.toJson)]

/-! ## Executor (agent-core/src/executor.rs)

`execute_plan` is embedded with two explicit oracles standing for the ambient
effects: `appendOk n` tells whether the n-th `log.append` call performed in the
run reaches storage (the code discards every append result with `let _ =`),
and `now` stands for `now_string()`.  The trace records the events actually
stored, the steps handed to the tool executor, and the returned result. -/

/-- The `ActionIntent` event appended at the head of each step. -/
def intentEvent (incident_id now : String) (step : ActionSchema) : Event :=
  { id := none, incident_id := incident_id, event_type := .ActionIntent,
    description := "intent: " ++ step.name,
    details := some (.obj [
      ("name", .str step.name),
      ("effect", .str step.effect.debugStr),
      ("status", .str "running"),
      ("mcp", .obj [
        ("tool_name", .str step.name),
        ("phase", .str "intent"),
        ("request", .obj [
          ("name", .str step.name),
          ("effect", .str step.effect.debugStr)])])]),
    timestamp := now }

/-- The `ActionResult` event appended when the tool executor returns `Ok`. -/
def doneResultEvent (incident_id now : String) (step : ActionSchema) (output : Json) : Event :=
  { id := none, incident_id := incident_id, event_type := .ActionResult,
    description := "action succeeded: " ++ step.name,
    details := some (.obj [
      ("name", .str step.name),
      ("effect", .str step.effect.debugStr),
      ("status", .str "done"),
      ("result", output),
      ("mcp", .obj [
        ("tool_name", .str step.name),
        ("phase", .str "result"),
        ("ok", .jbool true),
        ("output", output)])]),
    timestamp := now }

/-- The `ActionResult` event appended when the tool executor returns `Err`. -/
def failedResultEvent (incident_id now : String) (step : ActionSchema) (err : String) : Event :=
  { id := none, incident_id := incident_id, event_type := .ActionResult,
    description := "action failed: " ++ step.name,
    details := some (.obj [
      ("name", .str step.name),
      ("effect", .str step.effect.debugStr),
      ("status", .str "failed"),
      ("error", .str err),
      ("mcp", .obj [
        ("tool_name", .str step.name),
        ("phase", .str "result"),
        ("ok", .jbool false),
        ("error", .str err)])]),
    timestamp := now }

structure ExecTrace where
  events : List Event
  calls : List ActionSchema
  result : Except (ActionSchema × String) Unit

/-- `let _ = log.append(&event)`: the append is attempted, its outcome is
discarded; the event is stored only when the storage oracle says so. -/
def tryAppend (appendOk : Nat → Bool) (ctr : Nat) (e : Event) : List Event × Nat :=
  (if appendOk ctr then [e] else [], ctr + 1)

def execute_plan_go (appendOk : Nat → Bool) (incident_id now : String)
    (tool_executor : ActionSchema → Except String Json) :
    List ActionSchema → Nat → ExecTrace
  | [], _ => ⟨[], [], .ok ()⟩
  | step :: rest, ctr =>
    let p1 := tryAppend appendOk ctr (intentEvent incident_id now step)
    match tool_executor step with
    | .ok output =>
      let p2 := tryAppend appendOk p1.2 (doneResultEvent incident_id now step output)
      let t := execute_plan_go appendOk incident_id now tool_executor rest p2.2
      ⟨p1.1 ++ p2.1 ++ t.events, step :: t.calls, t.result⟩
    | .error err =>
      let p2 := tryAppend appendOk p1.2 (failedResultEvent incident_id now step err)
      ⟨p1.1 ++ p2.1, [step], .error (step, err)⟩

/-- `execute_plan`. -/
def execute_plan (appendOk : Nat → Bool) (incident_id now : String)
    (steps : List ActionSchema) (tool_executor : ActionSchema → Except String Json) :
    ExecTrace :=
  execute_plan_go appendOk incident_id now tool_executor steps 0

/-- The pair of events the code attempts to append for one executed step. -/
def stepTrace (incident_id now : String) (tool_executor : ActionSchema → Except String Json)
    (step : ActionSchema) : List Event :=
  intentEvent incident_id now step ::
    (match tool_executor step with
     | .ok output => [doneResultEvent incident_id now step output]
     | .error err => [failedResultEvent incident_id now step err])

/-- Index, step and error of the first step the tool executor fails on. -/
def firstFailure (tool_executor : ActionSchema → Except String Json) :
    List ActionSchema → Option (Nat × ActionSchema × String)
  | [] => none
  | step :: rest =>
    match tool_executor step with
    | .error err => some (0, step, err)
    | .ok _ => (firstFailure tool_executor rest).map (fun p => (p.1 + 1, p.2))

/-- The prefix of the plan whose steps the executor runs: everything up to and
including the first failing step, or every step when none fails. -/
def executedSteps (tool_executor : ActionSchema → Except String Json)
    (steps : List ActionSchema) : List ActionSchema :=
  match firstFailure tool_executor steps with
  | none => steps
  | some (k, _, _) => steps.take (k + 1)

/-- A tool executor failing exactly on `rollback-deployment`, used as the
concrete instance for the executor claims. -/
def c3Tool : ActionSchema → Except String Json :=
  fun s => if s.name = "rollback-deployment" then .error "boom" else .ok .null

/-! ## LLM interpreter and validator (agent-core/src/llm.rs)

The provider round-trip (`run_prompt` plus JSON parsing) is an external
effect; it is replaced by its outcome, an `Except` value.  The validation
logic after it is embedded verbatim. -/

structure Interpretation where
  hypothesis : String
  goal : String
  candidate_actions : List String
deriving DecidableEq

/-- The validation core of `propose_and_validate`: keep, in LLM order, each
returned name resolved against `all_actions`; if nothing resolved, fall back
to every `all_actions` entry whose name is among `candidate_actions`. -/
def validate_actions (names : List String) (candidate_actions : List String)
    (all_actions : List ActionSchema) : List ActionSchema :=
  let selected := names.filterMap (fun name => all_actions.find? (fun a => a.name == name))
  if selected.isEmpty then
    all_actions.filter (fun a => candidate_actions.contains a.name)
  else
    selected

/-- `propose_and_validate`, with the prompt/parse round-trip replaced by its
outcome `proposeRawRes` (the list of action names the LLM returned). -/
def propose_and_validate (proposeRawRes : Except String (List String))
    (candidate_actions : List String) (all_actions : List ActionSchema) :
    Except String (List ActionSchema) :=
  proposeRawRes.map (fun names => validate_actions names candidate_actions all_actions)

/-! ## Belief projection (src-tauri/src/commands.rs, materialize_fact_map)

`BTreeMap<String, (Fact, String)>` is modelled as a key-sorted association
list. -/

def mapInsert (k : String) (v : Fact × String) :
    List (String × Fact × String) → List (String × Fact × String)
  | [] => [(k, v)]
  | (k', v') :: rest =>
    if k < k' then (k, v) :: (k', v') :: rest
    else if k = k' then (k, v) :: rest
    else (k', v') :: mapInsert k v rest

def mapRemove (k : String) (m : List (String × Fact × String)) :
    List (String × Fact × String) :=
  m.filter (fun p => decide (p.1 ≠ k))

def mapLookup (k : String) : List (String × Fact × String) → Option (Fact × String)
  | [] => none
  | (k', v) :: rest => if k' = k then some v else mapLookup k rest

/-- One iteration of the `for event in events` loop of `materialize_fact_map`. -/
def materialize_step (current : List (String × Fact × String)) (event : Event) :
    List (String × Fact × String) :=
  match event.event_type with
  | .FactAsserted =>
    match event.details with
    | some value =>
      match Fact.fromJson? value with
      | some fact =>
        let fact_id := match fact with | .Alert alert => alert.id
        mapInsert fact_id (fact, event.timestamp) current
      | none => current
    | none => current
  | .FactRetracted =>
    match event.details with
    | some details =>
      match (details.getField "fact_id").bind Json.asStr with
      | some fact_id => mapRemove fact_id current
      | none => current
    | none => current
  | _ => current

/-- `materialize_fact_map`. -/
def materialize_fact_map (events : List Event) : List (String × Fact × String) :=
  events.foldl materialize_step []

/-- Event types the belief projection replays. -/
def beliefEvent (e : Event) : Bool :=
  decide (e.event_type = .FactAsserted ∨ e.event_type = .FactRetracted)

/-- The fact id a `FactAsserted` event inserts, when its details deserialize. -/
def eventAssertedId (e : Event) : Option String :=
  match e.event_type with
  | .FactAsserted =>
    match e.details with
    | some value => (Fact.fromJson? value).map (fun f => match f with | .Alert a => a.id)
    | none => none
  | _ => none

/-- The fact id a `FactRetracted` event removes. -/
def eventRetractedId (e : Event) : Option String :=
  match e.event_type with
  | .FactRetracted => e.details.bind (fun d => (d.getField "fact_id").bind Json.asStr)
  | _ => none

/-- `format!("{:?}", event_type)` from the `Debug` derive. -/
def EventType.debugStr : EventType → String
  | .FactAsserted => "FactAsserted"
  | .FactRetracted => "FactRetracted"
  | .FactSuggested => "FactSuggested"
  | .FactSuggestionResolved => "FactSuggestionResolved"
  | .PlanSelected => "PlanSelected"
  | .ActionIntent => "ActionIntent"
  | .ActionResult => "ActionResult"
  | .Escalated => "Escalated"
  | .EscalationResponded => "EscalationResponded"
  | .Resolved => "Resolved"

structure TimelineEventDto where
  id : Int
  event_type : String
  description : String
  timestamp : String

def timelineDto (e : Event) : TimelineEventDto :=
  { id := e.id.getD 0, event_type := e.event_type.debugStr,
    description := e.description, timestamp := e.timestamp }

/-- `get_timeline`: one row per event, in log order. -/
def get_timeline (events : List Event) : List TimelineEventDto :=
  events.map timelineDto

/-- Concrete instances for the C6 witness. -/
def c6Fact : Fact := .Alert ⟨"f1", .Generic, .High, "cpu high", [], "1"⟩

def c6Assert : Event :=
  { id := none, incident_id := "inc-6", event_type := .FactAsserted,
    description := "fact asserted", details := some c6Fact.toJson, timestamp := "1" }

def c6Retract : Event :=
  { id := none, incident_id := "inc-6", event_type := .FactRetracted,
    description := "fact retracted", details := some (.obj [("fact_id", .str "f1")]),
    timestamp := "2" }

/-! ## Pattern detector (agent-core/src/rules.rs) -/

inductive IncidentPattern where
  | CrashLoop
  | OomKill
  | Generic
deriving DecidableEq

def charListPrefix : List Char → List Char → Bool
  | [], _ => true
  | _ :: _, [] => false
  | a :: as, b :: bs => a == b && charListPrefix as bs

def charListSub (pat : List Char) : List Char → Bool
  | [] => charListPrefix pat []
  | c :: rest => charListPrefix pat (c :: rest) || charListSub pat rest

/-- Rust `str::contains(pattern)` for a string pattern: substring test. -/
def strContainsStr (s pat : String) : Bool :=
  charListSub pat.data s.data

/-- `detect_pattern`. -/
def detect_pattern : Fact → IncidentPattern
  | .Alert a =>
    let title_lower := a.title.toLower
    let tags_lower := a.tags.map String.toLower
    if strContainsStr title_lower "crashloop"
        || tags_lower.any (fun t => strContainsStr t "crashloop") then
      .CrashLoop
    else if strContainsStr title_lower "oom"
        || strContainsStr title_lower "out of memory"
        || tags_lower.any (fun t => strContainsStr t "oom") then
      .OomKill
    else
      .Generic

/-! ## Planner (agent-core/src/planner.rs) -/

/-- `select_runbook`. -/
def select_runbook (pattern : IncidentPattern) (runbooks : List (String × Runbook)) :
    Option (String × Runbook) :=
  let preferred :=
    match pattern with
    | .CrashLoop => some "crashloop"
    | .OomKill => some "oomkill"
    | .Generic => none
  match preferred with
  | none => none
  | some p => runbooks.find? (fun nr => strContainsStr nr.1.toLower p)

/-! ## Agent loop (agent-core/src/agent.rs)

One iteration of the `while let Ok(fact)` loop, for a single received fact.
The two LLM calls are replaced by their outcomes (an `LlmOracle`); the sliding
window of recent facts only feeds LLM prompts, which the oracle absorbs.  The
returned pair holds the events the loop attempts to append (in order) and the
escalation requests sent. -/

structure EscalationRequest where
  incident_id : String
  reason : String
deriving DecidableEq

structure LlmOracle where
  interpretRes : Except String Interpretation
  proposeRawRes : Except String (List String)

structure AgentConfig where
  max_replan_attempts : Nat
  runbooks : List (String × Runbook)
  all_actions : List ActionSchema
  goal_props : List String
  llm : Option LlmOracle

/-- `known_actions`. -/
def known_actions (config : AgentConfig) : List ActionSchema :=
  if config.all_actions ≠ [] then
    config.all_actions
  else
    let out := config.runbooks.foldl
      (fun out nr => nr.2.foldl
        (fun out action =>
          if out.any (fun a => a.name == action.name) then out else out ++ [action]) out) []
    if out = [] then crashloop_runbook else out

/-- `incident_id_from_fact`. -/
def incident_id_from_fact : Fact → String
  | .Alert alert => alert.id

def factAssertedEvent (incident_id now : String) (fact : Fact) : Event :=
  { id := none, incident_id := incident_id, event_type := .FactAsserted,
    description := "fact asserted", details := some fact.toJson, timestamp := now }

def planSelectedEvent (incident_id now runbook_name : String) (runbook : Runbook) : Event :=
  { id := none, incident_id := incident_id, event_type := .PlanSelected,
    description := "selected runbook: " ++ runbook_name,
    details := some (.arr (runbook.map ActionSchema.toJson)), timestamp := now }

def llmPlanSelectedEvent (incident_id now : String) (interp : Interpretation)
    (actions : List ActionSchema) : Event :=
  { id := none, incident_id := incident_id, event_type := .PlanSelected,
    description := "LLM-proposed plan: " ++ toString actions.length
      ++ " steps (" ++ interp.hypothesis ++ ")",
    details := some (.arr (actions.map ActionSchema.toJson)), timestamp := now }

def resolvedEvent (incident_id now : String) : Event :=
  { id := none, incident_id := incident_id, event_type := .Resolved,
    description := "incident resolved", details := none, timestamp := now }

/-- The `Escalated` event appended after an executor failure. -/
def escalatedStepEvent (incident_id now : String) (step : ActionSchema) (reason : String) :
    Event :=
  { id := none, incident_id := incident_id, event_type := .Escalated,
    description := "escalation required",
    details := some (.obj [
      ("name", .str step.name),
      ("effect", .str step.effect.debugStr),
      ("status", .str "failed"),
      ("reason", .str reason)]), timestamp := now }

/-- The `Escalated` event appended by `escalate_no_plan`. -/
def escalateNoPlanEvent (incident_id now reason : String) : Event :=
  { id := none, incident_id := incident_id, event_type := .Escalated,
    description := "escalation required",
    details := some (.obj [
      ("status", .str "failed"),
      ("reason", .str reason)]), timestamp := now }

/-- `llm::interpret(..).and_then(|interp| propose_and_validate(..).map(..))`
from the loop body, against the oracle. -/
def llmPlan (oracle : LlmOracle) (fallback : List ActionSchema) :
    Except String (Interpretation × List ActionSchema) := do
  let interp ← oracle.interpretRes
  let actions ← propose_and_validate oracle.proposeRawRes interp.candidate_actions fallback
  pure (interp, actions)

/-- One iteration of `run_agent` for one received fact: returns the events the
loop attempts to append, in order, and the escalation requests sent. -/
def process_fact (config : AgentConfig) (fact : Fact)
    (tool_executor : ActionSchema → Except String Json) (now : String) :
    List Event × List EscalationRequest :=
  let incident_id := incident_id_from_fact fact
  let factEv := factAssertedEvent incident_id now fact
  let runPlan := fun (planEv : Event) (selected : List ActionSchema) =>
    let t := execute_plan (fun _ => true) incident_id now selected tool_executor
    match t.result with
    | .ok _ =>
      (factEv :: planEv :: t.events ++ [resolvedEvent incident_id now],
        ([] : List EscalationRequest))
    | .error (failed_step, reason) =>
      (factEv :: planEv :: t.events ++ [escalatedStepEvent incident_id now failed_step reason],
        [⟨incident_id, reason⟩])
  match select_runbook (detect_pattern fact) config.runbooks with
  | some (runbook_name, runbook) =>
    runPlan (planSelectedEvent incident_id now runbook_name runbook) runbook
  | none =>
    match config.llm with
    | some oracle =>
      match llmPlan oracle (known_actions config) with
      | .ok (interp, actions) =>
        if actions.isEmpty then
          (factEv :: [escalateNoPlanEvent incident_id now "no valid llm plan"],
            [⟨incident_id, "no valid llm plan"⟩])
        else
          runPlan (llmPlanSelectedEvent incident_id now interp actions) actions
      | .error _ =>
        (factEv :: [escalateNoPlanEvent incident_id now "no valid llm plan"],
          [⟨incident_id, "no valid llm plan"⟩])
    | none =>
      (factEv :: [escalateNoPlanEvent incident_id now "no matching runbook"],
        [⟨incident_id, "no matching runbook"⟩])

/-- Concrete instances for the C7 witness. -/
def c7Fact : Fact := .Alert ⟨"inc-2", .Generic, .High, "disk space low", [], "1"⟩

def c7ConfigNoLlm : AgentConfig :=
  { max_replan_attempts := 1, runbooks := [], all_actions := [],
    goal_props := [], llm := none }

def c7Tool : ActionSchema → Except String Json := fun _ => .ok .null

/-! ## Webhook ingestion (agent-server/src/webhook.rs) -/

inductive StatusCode where
  | accepted
  | badRequest
  | serviceUnavailable
deriving DecidableEq

/-- `map_severity` (webhook.rs): case-insensitive, unknown becomes High. -/
def map_severity (value : String) : Severity :=
  match value.toLower with
  | "low" => .Low
  | "medium" => .Medium
  | "critical" => .Critical
  | _ => .High

/-- `GenericAdapter::parse` (`now` stands for `current_timestamp()`). -/
def genericAdapterParse (payload : Json) (now : String) : Except String CanonicalAlertV1 :=
  let alert : CanonicalAlertV1 :=
    { schema := "alert.v1",
      id := ((payload.getField "id" <|> payload.getField "incident_id").bind Json.asStr).getD
        "unknown",
      title := ((payload.getField "title" <|> payload.getField "alert_title").bind
        Json.asStr).getD "",
      severity := ((payload.getField "severity").bind Json.asStr).getD "high",
      tags := (((payload.getField "tags").bind Json.asArr).map
        (fun arr => arr.filterMap Json.asStr)).getD [],
      source := "generic",
      occurred_at := now }
  match validate_alert_v1 alert with
  | .ok _ => .ok alert
  | .error e => .error e

/-- `parse_with_adapter` specialised to the Generic adapter (`parse_generic`;
the datadog and pagerduty routes differ only in the `source` tag). -/
def parse_generic (source : AlertSource) (payload : Json) (now : String) :
    Except String Fact :=
  match genericAdapterParse payload now with
  | .error e => .error e
  | .ok canonical =>
    .ok (.Alert
      { id := canonical.id, source := source,
        severity := map_severity canonical.severity,
        title := canonical.title, tags := canonical.tags,
        received_at := canonical.occurred_at })

/-- `send_fact`: the status code returned and the fact delivered to the agent
channel, if any. -/
def send_fact (channelOpen : Bool) (fact : Except String Fact) :
    StatusCode × Option Fact :=
  match fact with
  | .error _ => (.badRequest, none)
  | .ok f => if channelOpen then (.accepted, some f) else (.serviceUnavailable, none)

/-- `handle_generic` (and `handle_datadog`/`handle_pagerduty` up to the source
tag). -/
def handle_generic (source : AlertSource) (channelOpen : Bool) (payload : Json)
    (now : String) : StatusCode × Option Fact :=
  send_fact channelOpen (parse_generic source payload now)

/-- Concrete payload for the C10 witness: no title field at all. -/
def c10Payload : Json := .obj [("id", .str "inc-10"), ("severity", .str "high")]

theorem mem_btreeInsert (x y : String) (l : List String) :
    y ∈ btreeInsert x l ↔ y = x ∨ y ∈ l := by
  induction l with
  | nil => simp [btreeInsert]
  | cons z zs ih =>
    simp only [btreeInsert]
    split
    · simp only [List.mem_cons]
    · split
      · rename_i h1 h2
        subst h2
        simp only [List.mem_cons]
        tauto
      · simp only [List.mem_cons, ih]
        tauto

theorem mem_btreeOfList (x : String) (xs : List String) :
    x ∈ btreeOfList xs ↔ x ∈ xs := by
  suffices h : ∀ acc, x ∈ xs.foldl (fun acc x => btreeInsert x acc) acc ↔ x ∈ xs ∨ x ∈ acc by
    simpa [btreeOfList] using h []
  induction xs with
  | nil => simp
  | cons z zs ih =>
    intro acc
    simp only [List.foldl_cons, ih, mem_btreeInsert, List.mem_cons]
    tauto

/-- Claim C4: `active_incidents()` contains `i` iff the log holds at least one
event whose `incident_id` is `i` and no event for `i` has type `Resolved`. -/
theorem C4 (log : List Event) (i : String) :
    i ∈ active_incidents log ↔
      ((∃ e ∈ log, e.incident_id = i) ∧
        ¬ ∃ e ∈ log, e.incident_id = i ∧ e.event_type = EventType.Resolved) := by
  simp only [active_incidents, List.mem_filter, mem_btreeOfList, List.mem_map,
    decide_eq_true_eq]
  constructor
  · rintro ⟨⟨e, he, hid⟩, hres⟩
    refine ⟨⟨e, he, hid⟩, ?_⟩
    rintro ⟨e', he', hid', htype⟩
    exact hres ⟨e', ⟨he', htype⟩, hid'⟩
  · rintro ⟨⟨e, he, hid⟩, hres⟩
    refine ⟨⟨e, he, hid⟩, ?_⟩
    rintro ⟨e', ⟨he', htype⟩, hid'⟩
    exact hres ⟨e', he', hid', htype⟩

/-! ## Claim theorems: C5 and C8 -/

/-- Claim C5: `validate_alert_v1` returns `Ok` iff the schema equals
`"alert.v1"`, `id` and `title` are non-empty after trimming whitespace, and the
lowercased severity is one of low/medium/high/critical; in every other case it
returns an error. -/
theorem C5 (alert : CanonicalAlertV1) :
    validate_alert_v1 alert = .ok () ↔
      (alert.schema = "alert.v1" ∧ alert.id.trim ≠ "" ∧ alert.title.trim ≠ "" ∧
        alert.severity.toLower ∈ (["low", "medium", "high", "critical"] : List String)) := by
  unfold validate_alert_v1
  by_cases hs : alert.schema = "alert.v1" <;>
    by_cases hid : alert.id.trim = "" <;>
      by_cases ht : alert.title.trim = "" <;>
        simp [hs, hid, ht] <;>
          rcases h : alert.severity.toLower with _ <;> split <;> simp_all

/-- Claim C8: `recovery` maps Pure and Observe to Retry, Mutate to
CheckAndRetry, Irreversible to ManualReview; `backtrackable` is false iff the
effect is Irreversible; `cost_weight` gives 1, 2, 10, 100 for Pure, Observe,
Mutate, Irreversible and is strictly increasing along that order; and serde
serialization followed by deserialization of any Effect is the identity. -/
theorem C8 :
    (Effect.Pure.recovery = .Retry ∧ Effect.Observe.recovery = .Retry ∧
      Effect.Mutate.recovery = .CheckAndRetry ∧
      Effect.Irreversible.recovery = .ManualReview) ∧
    (∀ e : Effect, e.backtrackable = false ↔ e = .Irreversible) ∧
    (Effect.Pure.cost_weight = 1 ∧ Effect.Observe.cost_weight = 2 ∧
      Effect.Mutate.cost_weight = 10 ∧ Effect.Irreversible.cost_weight = 100) ∧
    (Effect.Pure.cost_weight < Effect.Observe.cost_weight ∧
      Effect.Observe.cost_weight < Effect.Mutate.cost_weight ∧
      Effect.Mutate.cost_weight < Effect.Irreversible.cost_weight) ∧
    (∀ e : Effect, Effect.fromJson? e.toJson = some e) := by
  refine ⟨⟨rfl, rfl, rfl, rfl⟩, ?_, ⟨rfl, rfl, rfl, rfl⟩, ⟨by decide, by decide, by decide⟩, ?_⟩
  · intro e; cases e <;> simp [Effect.backtrackable]
  · intro e; cases e <;> rfl

/-! ## C1: incident summary status -/

theorem summarize_event_status (acc : IncidentDto) (e : Event) :
    (summarize_event acc e).status =
      match e.event_type with
      | .Resolved => "resolved"
      | .Escalated => "escalated"
      | _ => acc.status := by
  unfold summarize_event
  cases e.event_type <;> (repeat' split) <;> simp_all

theorem status_foldl (events : List Event) (acc : IncidentDto) :
    (events.foldl summarize_event acc).status =
      match lastStatusEvent events with
      | none => acc.status
      | some t => if t = .Resolved then "resolved" else "escalated" := by
  induction events generalizing acc with
  | nil => rfl
  | cons e rest ih =>
    simp only [List.foldl_cons, ih, lastStatusEvent]
    cases h : lastStatusEvent rest with
    | some t => simp [h]
    | none =>
      simp only [h, summarize_event_status]
      cases e.event_type <;> simp

theorem lastStatusEvent_mem (events : List Event) (t : EventType)
    (h : lastStatusEvent events = some t) : ∃ e ∈ events, e.event_type = t := by
  induction events with
  | nil => simp [lastStatusEvent] at h
  | cons e rest ih =>
    simp only [lastStatusEvent] at h
    cases h' : lastStatusEvent rest with
    | some t' =>
      rw [h'] at h
      injection h with h
      subst h
      obtain ⟨e', he', ht⟩ := ih h'
      exact ⟨e', List.mem_cons_of_mem _ he', ht⟩
    | none =>
      rw [h'] at h
      by_cases hc : e.event_type = EventType.Resolved ∨ e.event_type = EventType.Escalated
      · rw [if_pos hc] at h
        injection h with h
        exact ⟨e, List.mem_cons_self _ _, h⟩
      · rw [if_neg hc] at h
        exact absurd h (by simp)

/-- Claim C1 (counterexample): the claim as stated is false.  A log containing
a `Resolved` event followed by an `Escalated` event has at least one `Resolved`
event, yet `summarize_incident` reports status `"escalated"`. -/
theorem C1_counterexample :
    (∃ e ∈ c1Events, e.event_type = EventType.Resolved) ∧
      (summarize_incident "inc-1" c1Events).status ≠ "resolved" := by
  decide

/-- Claim C1 (amended): for every incident whose event log contains at least
one `Resolved` event, `summarize_incident` reports status `"resolved"`
provided no `Escalated` event occurs after the last `Resolved` event (the most
recent `Resolved`-or-`Escalated` event is a `Resolved`); events other than
`Escalated` may appear anywhere before or after the `Resolved` event. -/
theorem C1_amended (incident_id : String) (events : List Event)
    (h : lastStatusEvent events = some EventType.Resolved) :
    (∃ e ∈ events, e.event_type = EventType.Resolved) ∧
      (summarize_incident incident_id events).status = "resolved" := by
  refine ⟨lastStatusEvent_mem events _ h, ?_⟩
  simp [summarize_incident, status_foldl, h]

/-- Witness for C1_amended: an `Escalated` event strictly before the
`Resolved` event still yields status `"resolved"`. -/
theorem C1_amended_witness :
    lastStatusEvent c1WitnessEvents = some EventType.Resolved ∧
      (summarize_incident "inc-1" c1WitnessEvents).status = "resolved" :=
  ⟨by decide, (C1_amended "inc-1" c1WitnessEvents (by decide)).2⟩

/-! ## C3 and C9: the executor -/

theorem firstFailure_spec (tool_executor : ActionSchema → Except String Json)
    (steps : List ActionSchema) (k : Nat) (s : ActionSchema) (e : String)
    (h : firstFailure tool_executor steps = some (k, s, e)) :
    steps[k]? = some s ∧ tool_executor s = .error e := by
  induction steps generalizing k with
  | nil => simp [firstFailure] at h
  | cons step rest ih =>
    simp only [firstFailure] at h
    cases hf : tool_executor step with
    | error err =>
      rw [hf] at h
      simp only [Option.some.injEq, Prod.mk.injEq] at h
      obtain ⟨hk, hs, he⟩ := h
      subst hk; subst hs; subst he
      exact ⟨by simp, hf⟩
    | ok o =>
      rw [hf] at h
      cases hff : firstFailure tool_executor rest with
      | none => rw [hff] at h; simp at h
      | some p =>
        rcases p with ⟨k', s', e'⟩
        rw [hff] at h
        simp only [Option.map_some', Option.some.injEq, Prod.mk.injEq] at h
        obtain ⟨hk, hs, he⟩ := h
        subst hs; subst he
        obtain ⟨h1, h2⟩ := ih k' hff
        subst hk
        exact ⟨by simpa using h1, h2⟩

theorem exec_go_true (incident_id now : String)
    (tool_executor : ActionSchema → Except String Json) (steps : List ActionSchema) :
    ∀ ctr, execute_plan_go (fun _ => true) incident_id now tool_executor steps ctr =
      ⟨(executedSteps tool_executor steps).flatMap (stepTrace incident_id now tool_executor),
        executedSteps tool_executor steps,
        match firstFailure tool_executor steps with
        | none => .ok ()
        | some (_, s, e) => .error (s, e)⟩ := by
  induction steps with
  | nil => intro ctr; rfl
  | cons step rest ih =>
    intro ctr
    simp only [execute_plan_go, tryAppend, executedSteps, firstFailure]
    cases hf : tool_executor step with
    | ok output =>
      simp only [ih]
      cases hff : firstFailure tool_executor rest with
      | none => simp [executedSteps, hff, stepTrace, hf]
      | some p =>
        rcases p with ⟨k, s, e⟩
        simp [executedSteps, hff, stepTrace, hf, List.take]
    | error err =>
      simp [stepTrace, hf, executedSteps]

theorem flatMap_singleton_eq_map {α β : Type} (l : List α) (g : α → β) :
    (l.flatMap fun a => [g a]) = l.map g := by
  induction l with
  | nil => rfl
  | cons a as ih => simp [ih]

theorem filter_intent_stepTrace (incident_id now : String)
    (tool_executor : ActionSchema → Except String Json) (s : ActionSchema) :
    (stepTrace incident_id now tool_executor s).filter
        (fun ev => decide (ev.event_type = .ActionIntent))
      = [intentEvent incident_id now s] := by
  unfold stepTrace
  cases tool_executor s <;>
    simp [intentEvent, doneResultEvent, failedResultEvent]

/-- Claim C3: with appends reaching storage, the executor emits for each
executed step its `ActionIntent` then its `ActionResult`, in step order; the
`ActionIntent` events are exactly those of the executed prefix in order (so
for i &lt; j, step i's intent precedes step j's); on the first failure at step k
it appends a `"failed"` `ActionResult` for step k as the last stored event,
stores no `ActionIntent` beyond step k, and returns `PlanFailed(step k, e)`;
it returns success iff every executor call succeeded. -/
theorem C3 (incident_id now : String) (steps : List ActionSchema)
    (tool_executor : ActionSchema → Except String Json) :
    (execute_plan (fun _ => true) incident_id now steps tool_executor).events
        = (executedSteps tool_executor steps).flatMap (stepTrace incident_id now tool_executor) ∧
    (execute_plan (fun _ => true) incident_id now steps tool_executor).events.filter
          (fun ev => decide (ev.event_type = .ActionIntent))
        = (executedSteps tool_executor steps).map (intentEvent incident_id now) ∧
    ((execute_plan (fun _ => true) incident_id now steps tool_executor).result = .ok ()
        ↔ firstFailure tool_executor steps = none) ∧
    (∀ k s e, firstFailure tool_executor steps = some (k, s, e) →
      steps[k]? = some s ∧ tool_executor s = .error e ∧
      executedSteps tool_executor steps = steps.take (k + 1) ∧
      (execute_plan (fun _ => true) incident_id now steps tool_executor).result = .error (s, e) ∧
      (execute_plan (fun _ => true) incident_id now steps tool_executor).events.getLast?
        = some (failedResultEvent incident_id now s e)) := by
  have hchar := exec_go_true incident_id now tool_executor steps 0
  refine ⟨?_, ?_, ?_, ?_⟩
  · rw [execute_plan, hchar]
  · rw [execute_plan, hchar]
    show ((executedSteps tool_executor steps).flatMap
        (stepTrace incident_id now tool_executor)).filter _ = _
    rw [List.filter_flatMap]
    simp only [filter_intent_stepTrace]
    exact flatMap_singleton_eq_map _ _
  · rw [execute_plan, hchar]
    cases h : firstFailure tool_executor steps with
    | none => simp
    | some p => rcases p with ⟨k, s, e⟩; simp
  · intro k s e h
    obtain ⟨h1, h2⟩ := firstFailure_spec tool_executor steps k s e h
    refine ⟨h1, h2, by simp [executedSteps, h], ?_, ?_⟩
    · rw [execute_plan, hchar]; simp [h]
    · rw [execute_plan, hchar]
      show ((executedSteps tool_executor steps).flatMap
          (stepTrace incident_id now tool_executor)).getLast? = _
      have htake : executedSteps tool_executor steps = steps.take k ++ [s] := by
        simp [executedSteps, h, List.take_succ, h1]
      rw [htake, List.flatMap_append]
      have hstep : stepTrace incident_id now tool_executor s
          = [intentEvent incident_id now s, failedResultEvent incident_id now s e] := by
        simp [stepTrace, h2]
      have : (steps.take k).flatMap (stepTrace incident_id now tool_executor)
            ++ [s].flatMap (stepTrace incident_id now tool_executor)
          = ((steps.take k).flatMap (stepTrace incident_id now tool_executor)
              ++ [intentEvent incident_id now s]) ++ [failedResultEvent incident_id now s e] := by
        simp [hstep]
      rw [this, List.getLast?_concat]

/-- Witness for C3 at a concrete failing plan: the crashloop runbook with a
tool executor that fails on `rollback-deployment`. -/
theorem C3_witness :
    crashloop_runbook[1]? = some (⟨"rollback-deployment", Effect.Mutate⟩ : ActionSchema) ∧
      c3Tool ⟨"rollback-deployment", Effect.Mutate⟩ = .error "boom" ∧
      executedSteps c3Tool crashloop_runbook = crashloop_runbook.take (1 + 1) ∧
      (execute_plan (fun _ => true) "inc-3" "1" crashloop_runbook c3Tool).result
        = .error (⟨"rollback-deployment", Effect.Mutate⟩, "boom") ∧
      (execute_plan (fun _ => true) "inc-3" "1" crashloop_runbook c3Tool).events.getLast?
        = some (failedResultEvent "inc-3" "1" ⟨"rollback-deployment", Effect.Mutate⟩ "boom") :=
  (C3 "inc-3" "1" crashloop_runbook c3Tool).2.2.2 1
    ⟨"rollback-deployment", Effect.Mutate⟩ "boom" (by decide)

theorem exec_go_oracle_indep (incident_id now : String)
    (tool_executor : ActionSchema → Except String Json) (appendOk : Nat → Bool)
    (steps : List ActionSchema) :
    ∀ ctr ctr',
      (execute_plan_go appendOk incident_id now tool_executor steps ctr).calls
          = (execute_plan_go (fun _ => true) incident_id now tool_executor steps ctr').calls ∧
      (execute_plan_go appendOk incident_id now tool_executor steps ctr).result
          = (execute_plan_go (fun _ => true) incident_id now tool_executor steps ctr').result := by
  induction steps with
  | nil => intro ctr ctr'; exact ⟨rfl, rfl⟩
  | cons step rest ih =>
    intro ctr ctr'
    simp only [execute_plan_go, tryAppend]
    cases hf : tool_executor step with
    | ok o =>
      simp only [hf]
      exact ⟨by rw [(ih _ _).1], (ih _ _).2⟩
    | error e => simp [hf]

theorem exec_go_false_events (incident_id now : String)
    (tool_executor : ActionSchema → Except String Json) (steps : List ActionSchema) :
    ∀ ctr, (execute_plan_go (fun _ => false) incident_id now tool_executor steps ctr).events
      = [] := by
  induction steps with
  | nil => intro ctr; rfl
  | cons step rest ih =>
    intro ctr
    simp only [execute_plan_go, tryAppend]
    cases hf : tool_executor step with
    | ok o => simp [hf, ih]
    | error e => simp [hf]

/-- Claim C9: `execute_plan` discards every append result: the steps handed to
the tool executor and the returned result are identical whatever subset of
appends reaches storage; with every append failing the stored log stays empty,
and a plan whose steps all succeed still returns success, so steps execute
and the incident can resolve without any recorded events. -/
theorem C9 (incident_id now : String) (steps : List ActionSchema)
    (tool_executor : ActionSchema → Except String Json) (appendOk : Nat → Bool) :
    (execute_plan appendOk incident_id now steps tool_executor).calls
        = (execute_plan (fun _ => true) incident_id now steps tool_executor).calls ∧
    (execute_plan appendOk incident_id now steps tool_executor).result
        = (execute_plan (fun _ => true) incident_id now steps tool_executor).result ∧
    (execute_plan (fun _ => false) incident_id now steps tool_executor).events = [] ∧
    (firstFailure tool_executor steps = none →
      (execute_plan (fun _ => false) incident_id now steps tool_executor).result = .ok ()) := by
  refine ⟨(exec_go_oracle_indep incident_id now tool_executor appendOk steps 0 0).1,
    (exec_go_oracle_indep incident_id now tool_executor appendOk steps 0 0).2,
    exec_go_false_events incident_id now tool_executor steps 0, ?_⟩
  intro h
  have h1 := (exec_go_oracle_indep incident_id now tool_executor (fun _ => false) steps 0 0).2
  rw [execute_plan, h1, exec_go_true]
  simp [h]

/-- Witness for C9: the crashloop runbook with an always-succeeding executor
and every append failing still returns success over an empty stored log. -/
theorem C9_witness :
    firstFailure (fun _ => Except.ok Json.null) crashloop_runbook = none ∧
      (execute_plan (fun _ => false) "inc-9" "1" crashloop_runbook
        (fun _ => Except.ok Json.null)).result = Except.ok () ∧
      (execute_plan (fun _ => false) "inc-9" "1" crashloop_runbook
        (fun _ => Except.ok Json.null)).events = [] :=
  ⟨by decide,
    (C9 "inc-9" "1" crashloop_runbook (fun _ => Except.ok Json.null) (fun _ => false)).2.2.2
      (by decide),
    (C9 "inc-9" "1" crashloop_runbook (fun _ => Except.ok Json.null) (fun _ => false)).2.2.1⟩

/-! ## C2: the LLM action validator -/

/-- Claim C2: every `ActionSchema` the validator returns is an element of
`all_actions` (its name therefore occurs in `all_actions`), so no action
outside the whitelist is ever selected; and when no returned name resolves
against `all_actions`, the result is exactly the `all_actions` entries whose
name occurs in `candidate_actions`. -/
theorem C2 (names candidate_actions : List String) (all_actions : List ActionSchema) :
    (∀ a ∈ validate_actions names candidate_actions all_actions, a ∈ all_actions) ∧
    ((∀ n ∈ names, ∀ b ∈ all_actions, b.name ≠ n) →
      validate_actions names candidate_actions all_actions
        = all_actions.filter (fun a => candidate_actions.contains a.name)) := by
  constructor
  · intro a ha
    simp only [validate_actions] at ha
    split at ha
    · exact (List.mem_filter.mp ha).1
    · obtain ⟨n, _, hfind⟩ := List.mem_filterMap.mp ha
      exact List.mem_of_find?_eq_some hfind
  · intro h
    have hsel : names.filterMap
        (fun name => all_actions.find? (fun a => a.name == name)) = [] := by
      rw [List.filterMap_eq_nil_iff]
      intro n hn
      rw [List.find?_eq_none]
      intro a ha
      simpa using h n hn a ha
    simp only [validate_actions, hsel]
    rfl

/-- Witness for C2: an unknown LLM name with `inspect-pod-logs` among the
candidates falls back to the candidate-filtered whitelist. -/
theorem C2_witness :
    (∀ n ∈ (["unknown-action"] : List String), ∀ b ∈ crashloop_runbook, b.name ≠ n) ∧
      validate_actions ["unknown-action"] ["inspect-pod-logs"] crashloop_runbook
        = crashloop_runbook.filter
            (fun a => (["inspect-pod-logs"] : List String).contains a.name) :=
  ⟨by decide, (C2 ["unknown-action"] ["inspect-pod-logs"] crashloop_runbook).2 (by decide)⟩

/-! ## C6: the belief projection -/

theorem materialize_step_nonbelief (m : List (String × Fact × String)) (e : Event)
    (h : beliefEvent e = false) : materialize_step m e = m := by
  unfold beliefEvent at h
  unfold materialize_step
  cases hty : e.event_type <;> rw [hty] at h <;> simp_all

theorem foldl_materialize_filter (events : List Event) :
    ∀ m, events.foldl materialize_step m
      = (events.filter beliefEvent).foldl materialize_step m := by
  induction events with
  | nil => intro m; rfl
  | cons e rest ih =>
    intro m
    by_cases hb : beliefEvent e = true
    · simp only [List.foldl_cons, List.filter_cons, hb, if_pos trivial]
      exact ih (materialize_step m e)
    · have hb' : beliefEvent e = false := by simpa using hb
      simp only [List.foldl_cons, List.filter_cons, hb',
        materialize_step_nonbelief m e hb']
      simpa using ih m

theorem mapLookup_mapInsert (k k' : String) (v : Fact × String)
    (m : List (String × Fact × String)) :
    mapLookup k (mapInsert k' v m) = if k' = k then some v else mapLookup k m := by
  induction m with
  | nil => simp [mapInsert, mapLookup]
  | cons p rest ih =>
    rcases p with ⟨ky, vy⟩
    unfold mapInsert
    by_cases h1 : k' < ky
    · simp only [if_pos h1, mapLookup]
    · by_cases h2 : k' = ky
      · subst h2
        simp only [if_neg h1, if_pos rfl, mapLookup]
        by_cases h3 : k' = k <;> simp [h3]
      · simp only [if_neg h1, if_neg h2, mapLookup, ih]
        by_cases h3 : ky = k
        · subst h3
          simp [h2]
        · simp [h3]

theorem mapLookup_mapRemove_self (k : String) (m : List (String × Fact × String)) :
    mapLookup k (mapRemove k m) = none := by
  induction m with
  | nil => rfl
  | cons p rest ih =>
    rcases p with ⟨ky, vy⟩
    unfold mapRemove at ih ⊢
    rw [List.filter_cons]
    by_cases h : ky = k
    · have hc : (decide ((ky, vy).1 ≠ k)) = false := by simp [h]
      rw [hc, if_neg Bool.false_ne_true]
      exact ih
    · have hc : (decide ((ky, vy).1 ≠ k)) = true := by simp [h]
      rw [hc, if_pos rfl]
      unfold mapLookup
      rw [if_neg h]
      exact ih

theorem mapLookup_mapRemove_none (k k' : String) (m : List (String × Fact × String))
    (h : mapLookup k m = none) : mapLookup k (mapRemove k' m) = none := by
  induction m with
  | nil => rfl
  | cons p rest ih =>
    rcases p with ⟨ky, vy⟩
    unfold mapLookup at h
    have hk : ¬ ky = k := by
      intro hk
      rw [if_pos hk] at h
      exact Option.noConfusion h
    rw [if_neg hk] at h
    unfold mapRemove at ih ⊢
    rw [List.filter_cons]
    by_cases hr : (ky, vy).1 ≠ k'
    · have hc : (decide ((ky, vy).1 ≠ k')) = true := by simp [hr]
      rw [hc, if_pos rfl]
      unfold mapLookup
      rw [if_neg hk]
      exact ih h
    · have hc : (decide ((ky, vy).1 ≠ k')) = false := by simpa using hr
      rw [hc, if_neg Bool.false_ne_true]
      exact ih h

theorem materialize_step_lookup_none (m : List (String × Fact × String)) (e : Event)
    (fid : String) (hm : mapLookup fid m = none)
    (he : eventAssertedId e ≠ some fid) :
    mapLookup fid (materialize_step m e) = none := by
  unfold materialize_step
  cases hty : e.event_type <;> try exact hm
  · -- FactAsserted
    cases hd : e.details with
    | none => exact hm
    | some value =>
      dsimp only
      cases hf : Fact.fromJson? value with
      | none => exact hm
      | some fact =>
        cases fact with
        | Alert alert =>
          dsimp only
          have hid : eventAssertedId e = some alert.id := by
            simp [eventAssertedId, hty, hd, hf]
          have hne : alert.id ≠ fid := fun hh => he (by rw [hid, hh])
          rw [mapLookup_mapInsert, if_neg hne]
          exact hm
  · -- FactRetracted
    cases hd : e.details with
    | none => exact hm
    | some details =>
      dsimp only
      cases hg : (details.getField "fact_id").bind Json.asStr with
      | none => exact hm
      | some fact_id =>
        exact mapLookup_mapRemove_none fid fact_id m hm

theorem foldl_materialize_lookup_none (es : List Event) (fid : String) :
    ∀ m, mapLookup fid m = none →
      (∀ e ∈ es, eventAssertedId e ≠ some fid) →
      mapLookup fid (es.foldl materialize_step m) = none := by
  induction es with
  | nil => intro m hm _; exact hm
  | cons e rest ih =>
    intro m hm h
    simp only [List.foldl_cons]
    exact ih (materialize_step m e)
      (materialize_step_lookup_none m e fid hm (h e (by simp)))
      (fun e' he' => h e' (by simp [he']))

theorem materialize_step_retract (m : List (String × Fact × String)) (e : Event)
    (fid : String) (h : eventRetractedId e = some fid) :
    materialize_step m e = mapRemove fid m := by
  unfold materialize_step
  cases hty : e.event_type <;> try (simp [eventRetractedId, hty] at h)
  dsimp only
  cases hd : e.details with
  | none => simp [eventRetractedId, hty, hd] at h
  | some details =>
    have h' : (details.getField "fact_id").bind Json.asStr = some fid := by
      simpa [eventRetractedId, hty, hd] using h
    dsimp only
    cases hg : (details.getField "fact_id").bind Json.asStr with
    | none => rw [hg] at h'; exact absurd h' (by simp)
    | some fact_id =>
      rw [hg] at h'
      injection h' with h'
      subst h'
      rfl

/-- Claim C6: the belief projection replays only `FactAsserted` and
`FactRetracted` events (inserting/replacing by the fact's id, removing by
`details.fact_id`), so it is insensitive to every other event type; and after
a `FactAsserted` for fact id `fid` immediately or eventually followed by a
`FactRetracted` for `fid` with no later re-assert, `fid` is absent from the
projected beliefs while both events remain in the timeline projection. -/
theorem C6 :
    (∀ events : List Event,
      materialize_fact_map events = materialize_fact_map (events.filter beliefEvent)) ∧
    (∀ (es1 es2 : List Event) (eA eR : Event) (fid : String),
      eventAssertedId eA = some fid →
      eventRetractedId eR = some fid →
      (∀ e ∈ es2, eventAssertedId e ≠ some fid) →
      mapLookup fid (materialize_fact_map (es1 ++ eA :: eR :: es2)) = none ∧
      timelineDto eA ∈ get_timeline (es1 ++ eA :: eR :: es2) ∧
      timelineDto eR ∈ get_timeline (es1 ++ eA :: eR :: es2)) := by
  constructor
  · intro events
    exact foldl_materialize_filter events []
  · intro es1 es2 eA eR fid hA hR h2
    refine ⟨?_, ?_, ?_⟩
    · unfold materialize_fact_map
      rw [List.foldl_append]
      simp only [List.foldl_cons]
      apply foldl_materialize_lookup_none es2 fid _ _ h2
      rw [materialize_step_retract _ eR fid hR]
      exact mapLookup_mapRemove_self fid _
    · exact List.mem_map_of_mem timelineDto (by simp)
    · exact List.mem_map_of_mem timelineDto (by simp)

/-- Witness for C6: assert fact `f1` then retract it; the belief projection no
longer contains `f1`. -/
theorem C6_witness :
    eventAssertedId c6Assert = some "f1" ∧ eventRetractedId c6Retract = some "f1" ∧
      mapLookup "f1" (materialize_fact_map [c6Assert, c6Retract]) = none :=
  ⟨by decide, by decide,
    (C6.2 [] [] c6Assert c6Retract "f1" (by decide) (by decide) (by simp)).1⟩

/-! ## C7: escalation paths of the agent loop -/

/-- Claim C7: when the pattern detector yields no runbook selection, the loop
with no configured LLM appends exactly the `FactAsserted` event and an
`Escalated` event whose details carry reason `"no matching runbook"`, sends
one `EscalationRequest` with that reason, and appends no `ActionIntent`,
`ActionResult` or `Resolved` event; with an LLM configured whose validated
plan is empty or whose calls fail, the same shape results with reason
`"no valid llm plan"`. -/
theorem C7 (config : AgentConfig) (fact : Fact)
    (tool_executor : ActionSchema → Except String Json) (now : String)
    (hsel : select_runbook (detect_pattern fact) config.runbooks = none) :
    (config.llm = none →
      process_fact config fact tool_executor now
        = ([factAssertedEvent (incident_id_from_fact fact) now fact,
            escalateNoPlanEvent (incident_id_from_fact fact) now "no matching runbook"],
           [⟨incident_id_from_fact fact, "no matching runbook"⟩]) ∧
      (∀ e ∈ (process_fact config fact tool_executor now).1,
        e.event_type ≠ EventType.ActionIntent ∧ e.event_type ≠ EventType.ActionResult ∧
          e.event_type ≠ EventType.Resolved) ∧
      ((escalateNoPlanEvent (incident_id_from_fact fact) now
          "no matching runbook").details.bind
        (fun d => (d.getField "reason").bind Json.asStr)) = some "no matching runbook") ∧
    (∀ oracle, config.llm = some oracle →
      ((∃ interp, llmPlan oracle (known_actions config) = .ok (interp, [])) ∨
        (∃ msg, llmPlan oracle (known_actions config) = .error msg)) →
      process_fact config fact tool_executor now
        = ([factAssertedEvent (incident_id_from_fact fact) now fact,
            escalateNoPlanEvent (incident_id_from_fact fact) now "no valid llm plan"],
           [⟨incident_id_from_fact fact, "no valid llm plan"⟩])) := by
  constructor
  · intro hllm
    have hp : process_fact config fact tool_executor now
        = ([factAssertedEvent (incident_id_from_fact fact) now fact,
            escalateNoPlanEvent (incident_id_from_fact fact) now "no matching runbook"],
           [⟨incident_id_from_fact fact, "no matching runbook"⟩]) := by
      simp only [process_fact, hsel, hllm]
    refine ⟨hp, ?_, rfl⟩
    intro e he
    rw [hp] at he
    simp only [List.mem_cons, List.not_mem_nil, or_false] at he
    rcases he with he | he <;> subst he <;>
      exact ⟨(fun h => nomatch h), (fun h => nomatch h), (fun h => nomatch h)⟩
  · intro oracle hllm hbad
    rcases hbad with ⟨interp, hok⟩ | ⟨msg, herr⟩
    · simp only [process_fact, hsel, hllm, hok, List.isEmpty_nil, if_pos]
    · simp only [process_fact, hsel, hllm, herr]

/-- Witness for C7: an unmatched fact with no LLM configured escalates with
reason "no matching runbook" and appends no execution events. -/
theorem C7_witness :
    select_runbook (detect_pattern c7Fact) c7ConfigNoLlm.runbooks = none ∧
      process_fact c7ConfigNoLlm c7Fact c7Tool "1"
        = ([factAssertedEvent "inc-2" "1" c7Fact,
            escalateNoPlanEvent "inc-2" "1" "no matching runbook"],
           [⟨"inc-2", "no matching runbook"⟩]) :=
  ⟨by cases detect_pattern c7Fact <;> rfl,
    ((C7 c7ConfigNoLlm c7Fact c7Tool "1" (by cases detect_pattern c7Fact <;> rfl)).1 rfl).1⟩

/-! ## C10: the Generic adapter rejects payloads without a title -/

theorem trim_empty : ("" : String).trim = "" := by
  unfold String.trim Substring.trim
  unfold Substring.takeWhileAux Substring.takeRightWhileAux
  simp [String.toSubstring, Substring.toString, String.endPos, String.utf8ByteSize]
  rfl

/-- Claim C10: a JSON payload with neither a string-valued `title` nor a
string-valued `alert_title` field makes the Generic adapter default the title
to the empty string, which `validate_alert_v1` rejects, so the webhook replies
400 and no `Fact` reaches the agent channel. -/
theorem C10 (payload : Json) (channelOpen : Bool) (now : String) (source : AlertSource)
    (htitle : (payload.getField "title").bind Json.asStr = none)
    (halt : (payload.getField "alert_title").bind Json.asStr = none) :
    (∃ msg, parse_generic source payload now = .error msg) ∧
    handle_generic source channelOpen payload now = (.badRequest, none) := by
  have htl : ((payload.getField "title" <|> payload.getField "alert_title").bind
      Json.asStr) = none := by
    cases h1 : payload.getField "title" with
    | none => simpa [h1] using halt
    | some v =>
      have hv : v.asStr = none := by simpa [h1] using htitle
      simp [h1, hv]
  obtain ⟨msg, hmsg⟩ : ∃ msg, genericAdapterParse payload now = .error msg := by
    unfold genericAdapterParse
    rw [htl]
    unfold validate_alert_v1
    by_cases hid : (((payload.getField "id" <|> payload.getField "incident_id").bind
        Json.asStr).getD "unknown").trim = ""
    · exact ⟨"id is required", by simp [hid]⟩
    · exact ⟨"title is required", by simp [hid, trim_empty]⟩
  have hpg : parse_generic source payload now = .error msg := by
    simp [parse_generic, hmsg]
  exact ⟨⟨msg, hpg⟩, by simp [handle_generic, send_fact, hpg]⟩

/-- Witness for C10: a payload with an id and severity but no title at all is
rejected with a 400 and no fact is delivered. -/
theorem C10_witness :
    (c10Payload.getField "title").bind Json.asStr = none ∧
      (c10Payload.getField "alert_title").bind Json.asStr = none ∧
      handle_generic AlertSource.Generic true c10Payload "1"
        = (StatusCode.badRequest, none) :=
  ⟨by decide, by decide,
    (C10 c10Payload true "1" AlertSource.Generic (by decide) (by decide)).2⟩

end RigBdi
